import Mathlib

/-!
# Verification of the uuart userspace VUART diagnostic tool

Shallow embedding of `src/unnamed/part_000` (the flag-aware revision of
`uuart.c` that the specification describes: it alone has the session
configuration flags, the byte counters and the `iters < 0` infinite-loop
guard).  Device register reads, clock reads and the command line are inputs
(oracles); register writes, log lines and emitted bytes are recorded as an
event trace.  Machine bytes are `Nat` values; all bit manipulation uses the
source's masks literally.
-/

namespace UUart

/-! ## Register map (the `#define` constants of the source) -/

def R_RBR : Nat := 0x00
def R_THR : Nat := 0x00
def R_IER : Nat := 0x04
def IER_ERBFI : Nat := 1
def IER_ETBEI : Nat := 2
def R_IIR : Nat := 0x08
def R_FCR : Nat := 0x08
def R_LCR : Nat := 0x0c
def R_MCR : Nat := 0x10
def R_LSR : Nat := 0x14
def LSR_DR : Nat := 1
def LSR_THRE : Nat := 32
def R_MSR : Nat := 0x18
def R_GCRA : Nat := 0x20
def GCRA_H_TX_CORK : Nat := 32
def GCRA_VUART_EN : Nat := 1
def R_GCRB : Nat := 0x24
def R_VARL : Nat := 0x28
def R_VARH : Nat := 0x2c
def R_GCRE : Nat := 0x30
def R_GCRF : Nat := 0x34
def R_GCRG : Nat := 0x38
def R_GCRH : Nat := 0x3c

/-- The `struct uuart_config` session flags, in declaration order. -/
structure Config where
  assume_dtr : Bool
  assume_enabled : Bool
  assume_fifos : Bool
  ignore_rx : Bool
  ignore_tx : Bool
deriving DecidableEq, Repr

/-- Observable events of a run: register writes (`writeb`), traced register
reads (`readb`), stderr diagnostics and stdout bytes (`putchar`). -/
inductive Ev where
  /-- One of the fixed stderr header lines, numbered in program order:
  0 = "Startup configuration", 1 = "Initialised configuration",
  2 = "Running for %d iterations", 3 = "Terminating configuration". -/
  | banner (tag : Nat)
  /-- One line of `dump_regs`: register offset and the byte read there. -/
  | dumpLine (off val : Nat)
  /-- A `readb` performed outside `dump_regs` (IER during config, LSR and
  RBR inside the loop). -/
  | rd (off val : Nat)
  /-- A `writeb` of `val` at register offset `off`. -/
  | wr (off val : Nat)
  /-- The "VUART resumed at i, LSR: lsr" stderr line with timestamp `t`. -/
  | logResumed (i t lsr : Nat)
  /-- The "VUART stalled at i, LSR: lsr" stderr line with timestamp `t`. -/
  | logStalled (i t lsr : Nat)
  /-- Emission of a received byte on stdout via `putchar`. -/
  | out (b : Nat)
  /-- The final "Transmitted: n" stderr line. -/
  | reportTx (n : Nat)
  /-- The final "Received: n" stderr line. -/
  | reportRx (n : Nat)
deriving DecidableEq, Repr

/-- The registers printed by `dump_regs`, in source order. -/
def dumpOffsets : List Nat :=
  [R_IER, R_IIR, R_LCR, R_MCR, R_LSR, R_MSR, R_GCRA, R_GCRB,
   R_VARL, R_VARH, R_GCRE, R_GCRF, R_GCRG, R_GCRH]

/-- The `dump_regs` helper: one `readb` + one stderr line per named register, against
the register values `regs` observable at that checkpoint. -/
def dump_regs (regs : Nat → Nat) : List Ev :=
  dumpOffsets.map (fun off => Ev.dumpLine off (regs off))

/-! ## Device Configurator -/

/-- The interrupt-enable computation of the configurator, from the source:
`ier = readb(R_IER); if (!ignore_tx) ier &= ~IER_ETBEI;
if (!ignore_rx) ier &= ~IER_ERBFI;
if (!(ier & (IER_ETBEI | IER_ERBFI))) ier = 0;`.
The C complement `~mask` lands in a `uint8_t`, hence the byte-wide mask. -/
def configIER (cfg : Config) (cur : Nat) : Nat :=
  let ier := cur
  let ier := if !cfg.ignore_tx then ier &&& (0xff ^^^ IER_ETBEI) else ier
  let ier := if !cfg.ignore_rx then ier &&& (0xff ^^^ IER_ERBFI) else ier
  if ier &&& (IER_ETBEI ||| IER_ERBFI) == 0 then 0 else ier

/-- The configuration phase of `main` (between the two first dumps), as the
event trace it produces: the GCRA, FCR and MCR writes each gated on a flag,
and the ungated IER read-modify-write. `curIER` is the byte `readb` returns
for IER at this point. -/
def configEvents (cfg : Config) (curIER : Nat) : List Ev :=
  (if !cfg.assume_enabled then [Ev.wr R_GCRA (GCRA_VUART_EN ||| GCRA_H_TX_CORK)] else [])
    ++ [Ev.rd R_IER curIER, Ev.wr R_IER (configIER cfg curIER)]
    ++ (if !cfg.assume_fifos then [Ev.wr R_FCR 0x07] else [])
    ++ (if !cfg.assume_dtr then [Ev.wr R_MCR 0x0b] else [])

/-- Modelled from the spec (§4.2 step 2), for comparison against the code's
`configIER`: start from the current value; clear the transmit-empty-interrupt
bit unless transmit is ignored; clear the receive-data-interrupt bit unless
receive is ignored; if neither of the two bits remains set, force zero. -/
def ierSpecValue (cfg : Config) (cur : Nat) : Nat :=
  let clearBit : Nat → Nat → Nat := fun v b => if v.testBit b then v - 2 ^ b else v
  let v := cur
  let v := if cfg.ignore_tx then v else clearBit v 1
  let v := if cfg.ignore_rx then v else clearBit v 0
  if !v.testBit 1 && !v.testBit 0 then 0 else v

/-! ## Poll Loop -/

/-- The loop-local state of the poll loop: the `stall` flag and the two
byte counters. -/
structure PollState where
  stall : Bool
  txd : Nat
  rxd : Nat
deriving DecidableEq, Repr

/-- The state the poll loop starts from: `stall = false`, both counters 0. -/
def pollInit : PollState := ⟨false, 0, 0⟩

/-- One iteration's device/clock observations: the byte `readb(R_LSR)`
returns, the byte `readb(R_RBR)` would return if read, and the
`clock_gettime(CLOCK_BOOTTIME)` outcome if consulted (`none` = failure). -/
structure Sample where
  lsr : Nat
  rbr : Nat
  clk : Option Nat
deriving DecidableEq, Repr

/-- The loop's activity test, from the source:
`(lsr & LSR_DR) || (lsr & LSR_THRE)`. -/
def active (lsr : Nat) : Bool :=
  (lsr &&& LSR_DR != 0) || (lsr &&& LSR_THRE != 0)

/-- The stall/resume edge logic of one iteration: the new `stall` value and
the log line emitted, or an error when a log line is due but the clock read
fails (`err(EXIT_FAILURE, "clock_gettime")`). -/
def edgeResult (s : PollState) (i : Nat) (lsr : Nat) (clk : Option Nat) :
    Except Unit (Bool × List Ev) :=
  if active lsr then
    if s.stall then
      match clk with
      | none => .error ()
      | some t => .ok (false, [Ev.logResumed i t lsr])
    else .ok (false, [])
  else
    if s.stall then .ok (true, [])
    else
      match clk with
      | none => .error ()
      | some t => .ok (true, [Ev.logStalled i t lsr])

/-- One full iteration of the poll loop at index `i`: read LSR, run the edge
logic, then the transmit sub-action (write `'y'` = byte 121 to THR, count),
then the receive sub-action (read RBR, `putchar` it, count), in source
order.  On clock failure the whole program aborts: the iteration contributes
only its LSR read and the error propagates. -/
def pollStep (cfg : Config) (s : PollState) (i : Nat) (smp : Sample) :
    Except (List Ev) (PollState × List Ev) :=
  match edgeResult s i smp.lsr smp.clk with
  | .error _ => .error [Ev.rd R_LSR smp.lsr]
  | .ok (stall2, logEvs) =>
    let txAct := !cfg.ignore_tx && (smp.lsr &&& LSR_THRE != 0)
    let rxAct := !cfg.ignore_rx && (smp.lsr &&& LSR_DR != 0)
    .ok ({ stall := stall2,
           txd := s.txd + (if txAct then 1 else 0),
           rxd := s.rxd + (if rxAct then 1 else 0) },
         Ev.rd R_LSR smp.lsr :: logEvs
           ++ (if txAct then [Ev.wr R_THR 121] else [])
           ++ (if rxAct then [Ev.rd R_RBR smp.rbr, Ev.out smp.rbr] else []))

/-- Run the poll loop over a list of per-iteration samples, threading the
state and advancing the log index by `inc` each iteration (`inc` embeds the
source's `i += (iters > 0)`).  A clock failure aborts the run, keeping the
trace produced so far. -/
def pollRun (cfg : Config) (inc : Nat) (s : PollState) (i : Nat) :
    List Sample → Except (List Ev) (PollState × List Ev)
  | [] => .ok (s, [])
  | smp :: rest =>
    match pollStep cfg s i smp with
    | .error evs => .error evs
    | .ok (s2, evs) =>
      match pollRun cfg inc s2 (i + inc) rest with
      | .error evs2 => .error (evs ++ evs2)
      | .ok (s3, evs2) => .ok (s3, evs ++ evs2)

/-! ## The `for` loop header, taken apart

`for (int i = 0; iters < 0 || i < iters; i += (iters > 0))` -/

/-- The loop guard: `iters < 0 || i < iters`. -/
def loopCond (iters i : Int) : Bool := iters < 0 || i < iters

/-- The loop increment: `i += (iters > 0)`. -/
def loopNext (iters i : Int) : Int := i + (if 0 < iters then 1 else 0)

/-- The loop index after `k` executed iterations (starting from `i = 0`). -/
def loopIdx (iters : Int) : Nat → Int
  | 0 => 0
  | k + 1 => loopNext iters (loopIdx iters k)

/-! ## Whole-program model -/

/-- What the `mmap` call can return: a valid mapping, or — on failure —
`MAP_FAILED`, i.e. `(void *)-1`.  POSIX `mmap` never returns NULL. -/
inductive MmapResult where
  | mapped
  | mapFailed
deriving DecidableEq, Repr

/-- The source's mapping check, `if (!regs)` (part_000 line 178): it fires
only when `regs` is NULL — which `mmap` never returns, failure being
`MAP_FAILED` — so it is false for every possible `mmap` result. -/
def regsIsNull : MmapResult → Bool
  | .mapped => false
  | .mapFailed => false

lemma regsIsNull_eq_false (res : MmapResult) : regsIsNull res = false := by
  cases res <;> rfl

/-- Everything `main` consumes from the outside world: whether
`open("/dev/mem")` succeeded, what `mmap` returned, the parsed option
flags, the positional iteration-count argument if present, the register
bytes each of the three `dump_regs` checkpoints observes, the byte the
configurator's IER read returns, and the per-iteration loop samples.
When `mmapRes` is `mapFailed` the register accesses in the rest of the run
go through the invalid `MAP_FAILED` pointer; the byte oracles then stand
for whatever those accesses yield (undefined behaviour, not modelled
further) — what the model records is that the run carries on. -/
structure Input where
  openOk : Bool
  mmapRes : MmapResult
  cfg : Config
  arg : Option Int
  regs0 : Nat → Nat
  regs1 : Nat → Nat
  regs2 : Nat → Nat
  curIER : Nat
  samples : Nat → Sample

/-- How a terminating run ends: `exit(EXIT_SUCCESS)`, the `err` abort when
the region cannot be obtained, or the `err` abort on `clock_gettime`
failure. -/
inductive Outcome where
  | exitSuccess
  | errSetup
  | errClock
deriving DecidableEq, Repr

/-- The first `n` loop samples, in iteration order. -/
def sampleList (smp : Nat → Sample) (n : Nat) : List Sample :=
  (List.range n).map smp

/-- The final counter report: "Transmitted:" unless tx is ignored, then
"Received:" unless rx is ignored. -/
def reportEvents (cfg : Config) (txd rxd : Nat) : List Ev :=
  (if !cfg.ignore_tx then [Ev.reportTx txd] else [])
    ++ (if !cfg.ignore_rx then [Ev.reportRx rxd] else [])

/-- The function `main` of `src/unnamed/part_000` as outcome plus event trace, for the
runs that terminate.  The two setup checks are embedded literally:
`fd == -1` after `open` aborts with `err`, and `if (!regs)` after `mmap`
would abort with `err` — but that NULL test never fires (see
`regsIsNull`), so a failed mapping falls through into the rest of the run.
A negative iteration count makes the loop spin forever (no termination on
the count), which a trace-producing function cannot represent: that case
yields `none` and is analysed separately through
`loopCond`/`loopIdx`/`pollRun`. -/
def mainRun (inp : Input) : Option (Outcome × List Ev) :=
  if !inp.openOk then some (.errSetup, [])
  else if regsIsNull inp.mmapRes then some (.errSetup, [])
  else
    let evs0 := Ev.banner 0 :: dump_regs inp.regs0
    match inp.arg with
    | none => some (.exitSuccess, evs0)
    | some iters =>
      if iters < 0 then none
      else
        let cEvs := configEvents inp.cfg inp.curIER
        let evs1 := Ev.banner 1 :: dump_regs inp.regs1
        let inc : Nat := if 0 < iters then 1 else 0
        match pollRun inp.cfg inc pollInit 0 (sampleList inp.samples iters.toNat) with
        | .error evs =>
          some (.errClock, evs0 ++ cEvs ++ evs1 ++ [Ev.banner 2] ++ evs)
        | .ok (fin, evs) =>
          some (.exitSuccess,
            evs0 ++ cEvs ++ evs1 ++ [Ev.banner 2] ++ evs
              ++ (Ev.banner 3 :: dump_regs inp.regs2)
              ++ reportEvents inp.cfg fin.txd fin.rxd)

/-! ## Event classifiers -/

/-- Recognise a "VUART resumed" log line. -/
def isResumedEv : Ev → Bool
  | .logResumed _ _ _ => true
  | _ => false

/-- Recognise a "VUART stalled" log line. -/
def isStalledEv : Ev → Bool
  | .logStalled _ _ _ => true
  | _ => false

/-- Recognise either stall/resume log line. -/
def isLogEv (e : Ev) : Bool := isResumedEv e || isStalledEv e

/-- Recognise a register write. -/
def isWrEv : Ev → Bool
  | .wr _ _ => true
  | _ => false

/-- Recognise a register write at a given offset. -/
def isWrAt (off : Nat) : Ev → Bool
  | .wr o _ => o == off
  | _ => false

/-! ## Helper lemmas about single poll iterations -/

lemma isLogEv_split (e : Ev) :
    (if isLogEv e then 1 else 0)
      = (if isResumedEv e then 1 else 0) + (if isStalledEv e then 1 else 0) := by
  cases e <;> simp [isLogEv, isResumedEv, isStalledEv]

lemma countP_log_eq (evs : List Ev) :
    evs.countP isLogEv = evs.countP isResumedEv + evs.countP isStalledEv := by
  induction evs with
  | nil => simp
  | cons e t ih =>
    simp only [List.countP_cons, ih]
    have := isLogEv_split e
    omega

/-- Complete description of a successful poll iteration: the new stall flag,
the counter increments, and the stall/resume log lines present in its
trace. -/
lemma pollStep_ok_spec {cfg : Config} {s : PollState} {i : Nat} {smp : Sample}
    {s2 : PollState} {evs : List Ev}
    (h : pollStep cfg s i smp = .ok (s2, evs)) :
    s2.stall = !active smp.lsr ∧
    s2.txd = s.txd + (if !cfg.ignore_tx && (smp.lsr &&& LSR_THRE != 0) then 1 else 0) ∧
    s2.rxd = s.rxd + (if !cfg.ignore_rx && (smp.lsr &&& LSR_DR != 0) then 1 else 0) ∧
    evs.countP isResumedEv = (if s.stall && active smp.lsr then 1 else 0) ∧
    evs.countP isStalledEv = (if !s.stall && !active smp.lsr then 1 else 0) := by
  unfold pollStep edgeResult at h
  cases hA : active smp.lsr <;> cases hS : s.stall <;>
    simp only [hA, hS, Bool.false_eq_true, if_true, if_false, Bool.not_false,
      Bool.not_true] at h
  · -- inactive, flowing: stalled line, needs the clock
    cases hC : smp.clk with
    | none => simp [hC] at h
    | some t =>
      simp only [hC] at h
      obtain ⟨h1, h2⟩ := Prod.mk.inj (Except.ok.inj h)
      subst h1; subst h2
      refine ⟨by simp [hA], rfl, rfl, ?_, ?_⟩ <;>
        · cases hT : (!cfg.ignore_tx && (smp.lsr &&& LSR_THRE != 0)) <;>
            cases hR : (!cfg.ignore_rx && (smp.lsr &&& LSR_DR != 0)) <;>
            simp [hT, hR, hS, hA, isResumedEv, isStalledEv,
              List.countP_cons, List.countP_append]
  · -- inactive, stalled: no log
    obtain ⟨h1, h2⟩ := Prod.mk.inj (Except.ok.inj h)
    subst h1; subst h2
    refine ⟨by simp [hA], rfl, rfl, ?_, ?_⟩ <;>
      · cases hT : (!cfg.ignore_tx && (smp.lsr &&& LSR_THRE != 0)) <;>
          cases hR : (!cfg.ignore_rx && (smp.lsr &&& LSR_DR != 0)) <;>
          simp [hT, hR, hS, hA, isResumedEv, isStalledEv,
            List.countP_cons, List.countP_append]
  · -- active, flowing: no log
    obtain ⟨h1, h2⟩ := Prod.mk.inj (Except.ok.inj h)
    subst h1; subst h2
    refine ⟨by simp [hA], rfl, rfl, ?_, ?_⟩ <;>
      · cases hT : (!cfg.ignore_tx && (smp.lsr &&& LSR_THRE != 0)) <;>
          cases hR : (!cfg.ignore_rx && (smp.lsr &&& LSR_DR != 0)) <;>
          simp [hT, hR, hS, hA, isResumedEv, isStalledEv,
            List.countP_cons, List.countP_append]
  · -- active, stalled: resumed line, needs the clock
    cases hC : smp.clk with
    | none => simp [hC] at h
    | some t =>
      simp only [hC] at h
      obtain ⟨h1, h2⟩ := Prod.mk.inj (Except.ok.inj h)
      subst h1; subst h2
      refine ⟨by simp [hA], rfl, rfl, ?_, ?_⟩ <;>
        · cases hT : (!cfg.ignore_tx && (smp.lsr &&& LSR_THRE != 0)) <;>
            cases hR : (!cfg.ignore_rx && (smp.lsr &&& LSR_DR != 0)) <;>
            simp [hT, hR, hS, hA, isResumedEv, isStalledEv,
              List.countP_cons, List.countP_append]

/-- A poll iteration whose edge logic needs a log line aborts on clock
failure, contributing only its LSR read to the trace (no transmit, no
receive, no further writes). -/
lemma pollStep_err_spec {cfg : Config} {s : PollState} {i : Nat} {smp : Sample}
    (hclk : smp.clk = none)
    (hedge : active smp.lsr = s.stall) :
    pollStep cfg s i smp = .error [Ev.rd R_LSR smp.lsr] := by
  unfold pollStep edgeResult
  cases hA : active smp.lsr <;> cases hS : s.stall <;>
    simp_all [hclk]

/-- A poll iteration whose clock read succeeds (or is never consulted
because no log line is due) cannot abort. -/
lemma pollStep_ok_of_clk {cfg : Config} {s : PollState} {i : Nat} {smp : Sample}
    (hclk : smp.clk.isSome = true) :
    ∃ s2 evs, pollStep cfg s i smp = .ok (s2, evs) := by
  unfold pollStep edgeResult
  obtain ⟨t, ht⟩ := Option.isSome_iff_exists.mp hclk
  cases hA : active smp.lsr <;> cases hS : s.stall <;>
    simp [hA, hS, ht]

/-- Counter aggregation over a terminating run: each counter advances by
the number of satisfying iterations. -/
lemma pollRun_counts (cfg : Config) (inc : Nat) :
    ∀ (samples : List Sample) (s : PollState) (i : Nat) (s2 : PollState) (evs : List Ev),
      pollRun cfg inc s i samples = .ok (s2, evs) →
      s2.txd = s.txd + samples.countP (fun smp => !cfg.ignore_tx && (smp.lsr &&& LSR_THRE != 0)) ∧
      s2.rxd = s.rxd + samples.countP (fun smp => !cfg.ignore_rx && (smp.lsr &&& LSR_DR != 0)) := by
  intro samples
  induction samples with
  | nil =>
    intro s i s2 evs h
    simp only [pollRun] at h
    obtain ⟨h1, h2⟩ := Prod.mk.inj (Except.ok.inj h)
    subst h1
    simp
  | cons smp rest ih =>
    intro s i s2 evs h
    simp only [pollRun] at h
    cases hstep : pollStep cfg s i smp with
    | error e => simp [hstep] at h
    | ok p =>
      obtain ⟨s1, evs1⟩ := p
      simp only [hstep] at h
      cases hrun : pollRun cfg inc s1 (i + inc) rest with
      | error e2 => simp [hrun] at h
      | ok q =>
        obtain ⟨s3, evs2⟩ := q
        simp only [hrun] at h
        obtain ⟨-, htx, hrx, -, -⟩ := pollStep_ok_spec hstep
        obtain ⟨htx2, hrx2⟩ := ih s1 (i + inc) s3 evs2 hrun
        obtain ⟨h1, h2⟩ := Prod.mk.inj (Except.ok.inj h)
        subst h1
        constructor
        · rw [htx2, htx, List.countP_cons]
          omega
        · rw [hrx2, hrx, List.countP_cons]
          omega

/-- Over samples that are all active, a run starting in the Flowing state
stays Flowing, succeeds, and emits no stall/resume log line at all. -/
lemma pollRun_allActive_flowing (cfg : Config) (inc : Nat) :
    ∀ (samples : List Sample) (s : PollState) (i : Nat),
      s.stall = false →
      (∀ smp ∈ samples, active smp.lsr = true) →
      ∃ s2 evs, pollRun cfg inc s i samples = .ok (s2, evs) ∧
        s2.stall = false ∧
        evs.countP isResumedEv = 0 ∧ evs.countP isStalledEv = 0 := by
  intro samples
  induction samples with
  | nil =>
    intro s i hS _
    exact ⟨s, [], rfl, hS, rfl, rfl⟩
  | cons smp rest ih =>
    intro s i hS hact
    have hA : active smp.lsr = true := hact smp (by simp)
    have hstep : ∃ s1 evs1, pollStep cfg s i smp = .ok (s1, evs1) := by
      unfold pollStep edgeResult
      simp [hA, hS]
    obtain ⟨s1, evs1, hstep⟩ := hstep
    obtain ⟨hstall, -, -, hres, hstl⟩ := pollStep_ok_spec hstep
    rw [hA] at hstall
    simp only [Bool.not_true] at hstall
    obtain ⟨s2, evs2, hrun, hst2, hres2, hstl2⟩ :=
      ih s1 (i + inc) hstall (fun x hx => hact x (by simp [hx]))
    refine ⟨s2, evs1 ++ evs2, ?_, hst2, ?_, ?_⟩
    · simp only [pollRun, hstep, hrun]
    · rw [List.countP_append, hres2, hres, hS, hA]
      simp
    · rw [List.countP_append, hstl2, hstl, hS, hA]
      simp

/-- Over samples that are all active (with the clock available), a run
emits exactly one resumed line when it starts Stalled and none when it
starts Flowing, and never a stalled line. -/
lemma pollRun_allActive (cfg : Config) (inc : Nat) (samples : List Sample)
    (s : PollState) (i : Nat)
    (hact : ∀ smp ∈ samples, active smp.lsr = true)
    (hclk : ∀ smp ∈ samples, smp.clk.isSome = true) :
    ∃ s2 evs, pollRun cfg inc s i samples = .ok (s2, evs) ∧
      evs.countP isResumedEv = (if s.stall && !samples.isEmpty then 1 else 0) ∧
      evs.countP isStalledEv = 0 := by
  cases samples with
  | nil => exact ⟨s, [], rfl, by simp, rfl⟩
  | cons smp rest =>
    have hA : active smp.lsr = true := hact smp (by simp)
    cases hS : s.stall with
    | false =>
      obtain ⟨s2, evs, hrun, -, hres, hstl⟩ :=
        pollRun_allActive_flowing cfg inc (smp :: rest) s i hS hact
      exact ⟨s2, evs, hrun, by simp [hres, hS], hstl⟩
    | true =>
      obtain ⟨s1, evs1, hstep⟩ :=
        @pollStep_ok_of_clk cfg s i smp (hclk smp (by simp))
      obtain ⟨hstall, -, -, hres, hstl⟩ := pollStep_ok_spec hstep
      rw [hA] at hstall
      simp only [Bool.not_true] at hstall
      obtain ⟨s2, evs2, hrun, -, hres2, hstl2⟩ :=
        pollRun_allActive_flowing cfg inc rest s1 (i + inc) hstall
          (fun x hx => hact x (by simp [hx]))
      refine ⟨s2, evs1 ++ evs2, ?_, ?_, ?_⟩
      · simp only [pollRun, hstep, hrun]
      · rw [List.countP_append, hres2, hres, hS, hA]
        simp
      · rw [List.countP_append, hstl2, hstl, hS, hA]
        simp

/-- An abort inside the loop ends the run regardless of how many further
iterations were requested: appending more samples changes nothing. -/
lemma pollRun_error_append (cfg : Config) (inc : Nat) :
    ∀ (xs ys : List Sample) (s : PollState) (i : Nat) (e : List Ev),
      pollRun cfg inc s i xs = .error e →
      pollRun cfg inc s i (xs ++ ys) = .error e := by
  intro xs
  induction xs with
  | nil =>
    intro ys s i e h
    simp [pollRun] at h
  | cons smp rest ih =>
    intro ys s i e h
    rw [List.cons_append]
    simp only [pollRun] at h ⊢
    cases hstep : pollStep cfg s i smp with
    | error e1 =>
      simp only [hstep] at h ⊢
      exact h
    | ok p =>
      obtain ⟨s1, evs1⟩ := p
      simp only [hstep] at h ⊢
      cases hrun : pollRun cfg inc s1 (i + inc) rest with
      | error e2 =>
        simp only [hrun] at h
        rw [ih ys s1 (i + inc) e2 hrun]
        exact h
      | ok q =>
        simp [hrun] at h

/-! ## Claim theorems -/

/-- Claim C1: stall/resume logging is strictly edge-triggered.  A successful
iteration emits a resumed line exactly when its sample is active and the
previous state was Stalled, a stalled line exactly when its sample is
inactive and the previous state was Flowing, and no log line at all when
the state does not change; a run of repeated active samples emits exactly
one resumed line when it starts Stalled and zero when it starts Flowing,
and no stalled line. -/
theorem edge_triggered_logging :
    (∀ (cfg : Config) (s : PollState) (i : Nat) (smp : Sample) (s2 : PollState) (evs : List Ev),
       pollStep cfg s i smp = .ok (s2, evs) →
       evs.countP isResumedEv = (if s.stall && active smp.lsr then 1 else 0) ∧
       evs.countP isStalledEv = (if !s.stall && !active smp.lsr then 1 else 0) ∧
       s2.stall = !active smp.lsr ∧
       (s2.stall = s.stall → evs.countP isLogEv = 0)) ∧
    (∀ (cfg : Config) (inc : Nat) (s : PollState) (i : Nat) (samples : List Sample),
       (∀ smp ∈ samples, active smp.lsr = true) →
       (∀ smp ∈ samples, smp.clk.isSome = true) →
       ∃ s2 evs, pollRun cfg inc s i samples = .ok (s2, evs) ∧
         evs.countP isResumedEv = (if s.stall && !samples.isEmpty then 1 else 0) ∧
         evs.countP isStalledEv = 0) := by
  constructor
  · intro cfg s i smp s2 evs h
    obtain ⟨hstall, -, -, hres, hstl⟩ := pollStep_ok_spec h
    refine ⟨hres, hstl, hstall, ?_⟩
    intro hsame
    rw [hstall] at hsame
    rw [countP_log_eq, hres, hstl, ← hsame]
    cases active smp.lsr <;> simp
  · intro cfg inc s i samples hact hclk
    exact pollRun_allActive cfg inc samples s i hact hclk

/-- Witness for C1: a concrete three-iteration all-active run starting
Stalled emits exactly one resumed line and no stalled line. -/
theorem edge_triggered_logging_witness :
    ∃ s2 evs,
      pollRun ⟨false, false, false, false, false⟩ 1 ⟨true, 0, 0⟩ 0
          [⟨33, 65, some 1⟩, ⟨33, 66, some 2⟩, ⟨32, 67, some 3⟩] = .ok (s2, evs) ∧
      evs.countP isResumedEv = 1 ∧ evs.countP isStalledEv = 0 := by
  obtain ⟨s2, evs, h1, h2, h3⟩ :=
    edge_triggered_logging.2 ⟨false, false, false, false, false⟩ 1 ⟨true, 0, 0⟩ 0
      [⟨33, 65, some 1⟩, ⟨33, 66, some 2⟩, ⟨32, 67, some 3⟩]
      (by decide) (by decide)
  exact ⟨s2, evs, h1, by simpa using h2, h3⟩

/-- Claim C5: the byte counters start at zero, advance by exactly one on each
iteration whose status bit is observed set with the path not ignored, never
decrease, and at the end of a terminating run equal the number of
iterations in which the respective bit was observed set (when the path is
not ignored). -/
theorem byte_counters :
    pollInit.txd = 0 ∧ pollInit.rxd = 0 ∧
    (∀ (cfg : Config) (s : PollState) (i : Nat) (smp : Sample) (s2 : PollState) (evs : List Ev),
       pollStep cfg s i smp = .ok (s2, evs) →
       s2.txd = s.txd + (if !cfg.ignore_tx && (smp.lsr &&& LSR_THRE != 0) then 1 else 0) ∧
       s2.rxd = s.rxd + (if !cfg.ignore_rx && (smp.lsr &&& LSR_DR != 0) then 1 else 0) ∧
       s.txd ≤ s2.txd ∧ s.rxd ≤ s2.rxd) ∧
    (∀ (cfg : Config) (inc : Nat) (samples : List Sample) (i : Nat)
       (s2 : PollState) (evs : List Ev),
       pollRun cfg inc pollInit i samples = .ok (s2, evs) →
       s2.txd = samples.countP (fun smp => !cfg.ignore_tx && (smp.lsr &&& LSR_THRE != 0)) ∧
       s2.rxd = samples.countP (fun smp => !cfg.ignore_rx && (smp.lsr &&& LSR_DR != 0)) ∧
       (cfg.ignore_tx = false →
         s2.txd = samples.countP (fun smp => smp.lsr &&& LSR_THRE != 0)) ∧
       (cfg.ignore_rx = false →
         s2.rxd = samples.countP (fun smp => smp.lsr &&& LSR_DR != 0))) := by
  refine ⟨rfl, rfl, ?_, ?_⟩
  · intro cfg s i smp s2 evs h
    obtain ⟨-, htx, hrx, -, -⟩ := pollStep_ok_spec h
    exact ⟨htx, hrx, by omega, by omega⟩
  · intro cfg inc samples i s2 evs h
    obtain ⟨htx, hrx⟩ := pollRun_counts cfg inc samples pollInit i s2 evs h
    simp only [pollInit, Nat.zero_add] at htx hrx
    refine ⟨htx, hrx, ?_, ?_⟩
    · intro hit
      rw [htx]
      simp [hit]
    · intro hir
      rw [hrx]
      simp [hir]

/-- Witness for C5: a concrete run where THRE is set twice and DR once
ends with `txd = 2`, `rxd = 1`. -/
theorem byte_counters_witness :
    ∃ s2 evs,
      pollRun ⟨false, false, false, false, false⟩ 1 pollInit 0
          [⟨32, 0, some 1⟩, ⟨33, 65, some 2⟩, ⟨0, 0, some 3⟩] = .ok (s2, evs) ∧
      s2.txd = 2 ∧ s2.rxd = 1 := by
  have hrun : pollRun ⟨false, false, false, false, false⟩ 1 pollInit 0
      [⟨32, 0, some 1⟩, ⟨33, 65, some 2⟩, ⟨0, 0, some 3⟩]
      = .ok (⟨true, 2, 1⟩,
        [Ev.rd 20 32, Ev.wr 0 121, Ev.rd 20 33, Ev.wr 0 121, Ev.rd 0 65,
         Ev.out 65, Ev.rd 20 0, Ev.logStalled 2 3 0]) := by rfl
  obtain ⟨-, -, -, hrun2⟩ := byte_counters
  obtain ⟨htx, hrx, -, -⟩ :=
    hrun2 ⟨false, false, false, false, false⟩ 1
      [⟨32, 0, some 1⟩, ⟨33, 65, some 2⟩, ⟨0, 0, some 3⟩] 0 _ _ hrun
  exact ⟨_, _, hrun, by rw [htx]; decide, by rw [hrx]; decide⟩

/-- Claim C8: in an iteration where both paths act (THRE and DR both observed
set, neither path ignored), the transmit action (write the filler byte 'y'
to THR) happens before the receive action (read RBR and emit the byte):
the iteration's trace is the LSR read, then only log lines, then the THR
write, then the RBR read and the output byte. -/
theorem tx_before_rx (cfg : Config) (s : PollState) (i : Nat) (smp : Sample)
    (htx : cfg.ignore_tx = false) (hrx : cfg.ignore_rx = false)
    (hthre : smp.lsr &&& LSR_THRE ≠ 0) (hdr : smp.lsr &&& LSR_DR ≠ 0)
    (hclk : smp.clk.isSome = true) :
    ∃ s2 logEvs,
      pollStep cfg s i smp
        = .ok (s2, Ev.rd R_LSR smp.lsr :: logEvs
            ++ [Ev.wr R_THR 121, Ev.rd R_RBR smp.rbr, Ev.out smp.rbr]) ∧
      ∀ e ∈ logEvs, isLogEv e = true := by
  obtain ⟨t, ht⟩ := Option.isSome_iff_exists.mp hclk
  have hA : active smp.lsr = true := by
    simp [active, hthre]
  cases hS : s.stall
  · refine ⟨⟨false, s.txd + 1, s.rxd + 1⟩, [], ?_, by simp⟩
    unfold pollStep edgeResult
    simp [hA, hS, ht, htx, hrx, hthre, hdr]
  · refine ⟨⟨false, s.txd + 1, s.rxd + 1⟩, [Ev.logResumed i t smp.lsr], ?_,
      by simp [isLogEv, isResumedEv]⟩
    unfold pollStep edgeResult
    simp [hA, hS, ht, htx, hrx, hthre, hdr]

/-- Witness for C8: concrete iteration with LSR = DR|THRE = 0x21. -/
theorem tx_before_rx_witness :
    ∃ s2 logEvs,
      pollStep ⟨false, false, false, false, false⟩ ⟨false, 0, 0⟩ 0 ⟨33, 65, some 9⟩
        = .ok (s2, Ev.rd R_LSR 33 :: logEvs
            ++ [Ev.wr R_THR 121, Ev.rd R_RBR 65, Ev.out 65]) ∧
      ∀ e ∈ logEvs, isLogEv e = true :=
  tx_before_rx ⟨false, false, false, false, false⟩ ⟨false, 0, 0⟩ 0 ⟨33, 65, some 9⟩
    rfl rfl (by decide) (by decide) rfl

set_option maxRecDepth 4000 in
lemma ier_eq_spec_fin : ∀ (tx rx : Bool) (c : Fin 256),
    configIER ⟨false, false, false, rx, tx⟩ c.val
      = ierSpecValue ⟨false, false, false, rx, tx⟩ c.val := by
  decide

/-- Claim C2: for every initial IER byte and every combination of the ignore
flags, the value the configurator writes to IER (the unique write at that
offset in the configuration trace) equals the spec's rule: clear the
transmit-empty-interrupt bit unless transmit is ignored, clear the
receive-data-interrupt bit unless receive is ignored, and force the whole
value to zero if neither bit remains set. -/
theorem ier_written_value (cfg : Config) (cur : Nat) (h : cur < 256) :
    (configEvents cfg cur).filter (isWrAt R_IER)
      = [Ev.wr R_IER (ierSpecValue cfg cur)] := by
  have h1 : configIER cfg cur
      = configIER ⟨false, false, false, cfg.ignore_rx, cfg.ignore_tx⟩ cur := rfl
  have h2 : ierSpecValue cfg cur
      = ierSpecValue ⟨false, false, false, cfg.ignore_rx, cfg.ignore_tx⟩ cur := rfl
  have key : configIER cfg cur = ierSpecValue cfg cur := by
    rw [h1, h2]
    exact ier_eq_spec_fin cfg.ignore_tx cfg.ignore_rx ⟨cur, h⟩
  rcases cfg with ⟨d, e, f, rx, tx⟩
  cases d <;> cases e <;> cases f <;>
    simp_all [configEvents, isWrAt, R_IER, R_GCRA, R_FCR, R_MCR]

/-- Witness for C2 at IER = 0xab with no flag set. -/
theorem ier_written_value_witness :
    (configEvents ⟨false, false, false, false, false⟩ 0xab).filter (isWrAt R_IER)
      = [Ev.wr R_IER (ierSpecValue ⟨false, false, false, false, false⟩ 0xab)] :=
  ier_written_value ⟨false, false, false, false, false⟩ 0xab (by decide)

/-- Counterexample to C4 as stated: with every flag set (the claim's
"inspect-only" mode) the configurator still performs a register write —
the ungated interrupt-enable write — and with IER initially 0x08 that
write changes the register to 0. -/
theorem config_all_flags_still_writes :
    (configEvents ⟨true, true, true, true, true⟩ 8).filter isWrEv
      = [Ev.wr R_IER 0] := by decide

/-- C4 amended: the three flag-gated configuration steps (enable device,
reset FIFOs, assert ready lines) are each performed as a single write
exactly when their flag is clear and skipped entirely when it is set;
the interrupt-enable write is always performed, whatever the flags. -/
theorem config_steps_gated (cfg : Config) (cur : Nat) :
    ((configEvents cfg cur).countP (isWrAt R_GCRA)
        = if cfg.assume_enabled then 0 else 1) ∧
    ((configEvents cfg cur).countP (isWrAt R_FCR)
        = if cfg.assume_fifos then 0 else 1) ∧
    ((configEvents cfg cur).countP (isWrAt R_MCR)
        = if cfg.assume_dtr then 0 else 1) ∧
    (configEvents cfg cur).countP (isWrAt R_IER) = 1 := by
  rcases cfg with ⟨d, e, f, rx, tx⟩
  cases d <;> cases e <;> cases f <;>
    simp [configEvents, isWrAt, R_IER, R_GCRA, R_FCR, R_MCR,
      List.countP_cons, List.countP_append]

/-- Counterexample to C3 as stated: with requested count −1 the iteration
index does not increment — `i += (iters > 0)` adds 0 for a negative count,
so after one iteration the index is still 0. -/
theorem negative_count_index_static :
    loopNext (-1) 0 = 0 ∧ loopIdx (-1) 1 = 0 := by decide

/-- C3 amended: a negative requested count runs indefinitely — the loop
guard holds after every iteration — but the iteration index stays frozen
at 0 rather than incrementing; a non-negative count runs exactly that many
iterations (the guard holds precisely for the first `iters` iteration
starts), the index advancing by 1 per iteration when the count is
positive. -/
theorem iteration_count_policy (iters : Int) :
    (∀ k : Nat, loopIdx iters k = if 0 < iters then (k : Int) else 0) ∧
    (iters < 0 → ∀ k : Nat, loopCond iters (loopIdx iters k) = true) ∧
    (0 ≤ iters → ∀ k : Nat,
      loopCond iters (loopIdx iters k) = decide ((k : Int) < iters)) := by
  have hidx : ∀ k : Nat, loopIdx iters k = if 0 < iters then (k : Int) else 0 := by
    intro k
    induction k with
    | zero => simp [loopIdx]
    | succ n ih =>
      simp only [loopIdx, loopNext, ih]
      by_cases hp : 0 < iters <;> simp [hp]
  refine ⟨hidx, ?_, ?_⟩
  · intro hneg k
    simp [loopCond, hneg]
  · intro h0 k
    rw [hidx]
    by_cases hp : 0 < iters
    · have hnn : ¬iters < 0 := by omega
      simp [hp, loopCond, hnn]
    · have hz : iters = 0 := by omega
      subst hz
      have hk : ¬((k : Int) < 0) := by omega
      simp [loopCond, hk]

/-- Witness for C3 amended: count −1 never terminates with a frozen index;
count 2 terminates exactly after its 2 iterations, index advancing. -/
theorem iteration_count_policy_witness :
    loopIdx (-1) 3 = 0 ∧ loopCond (-1) (loopIdx (-1) 3) = true ∧
    loopCond 2 (loopIdx 2 2) = false ∧ loopIdx 2 1 = 1 := by
  obtain ⟨hidxN, hneg, -⟩ := iteration_count_policy (-1)
  obtain ⟨hidxP, -, hpos⟩ := iteration_count_policy 2
  refine ⟨?_, hneg (by decide) 3, ?_, ?_⟩
  · rw [hidxN 3]
    decide
  · rw [hpos (by decide) 2]
    decide
  · rw [hidxP 1]
    decide

/-- Failing input for claim C6: `open` succeeds, `mmap` fails (returns
`MAP_FAILED`), no flag set, iteration count 0 requested. -/
def inputMmapFail : Input :=
  ⟨true, .mapFailed, ⟨false, false, false, false, false⟩, some 0,
   fun _ => 0, fun _ => 0, fun _ => 0, 0, fun _ => ⟨0, 0, some 0⟩⟩

/-- Claim C6 is right about the intent but the code has a bug: the mapping
check `if (!regs)` (part_000 line 178) tests for NULL, while a failed
`mmap` returns `MAP_FAILED`, never NULL — so the check cannot fire on any
`mmap` result.  On `inputMmapFail` (mapping failed, count 0) the run is
not aborted with the setup error: it proceeds through the dumps and the
configuration phase — performing configuration writes through the invalid
pointer — and exits successfully, with the failure never reported. -/
theorem mmap_failure_not_detected :
    (∀ res, regsIsNull res = false) ∧
    mainRun inputMmapFail ≠ some (Outcome.errSetup, []) ∧
    mainRun inputMmapFail = some (.exitSuccess,
      (Ev.banner 0 :: dump_regs inputMmapFail.regs0)
        ++ configEvents inputMmapFail.cfg inputMmapFail.curIER
        ++ (Ev.banner 1 :: dump_regs inputMmapFail.regs1)
        ++ [Ev.banner 2]
        ++ (Ev.banner 3 :: dump_regs inputMmapFail.regs2)
        ++ reportEvents inputMmapFail.cfg 0 0) ∧
    0 < (configEvents inputMmapFail.cfg inputMmapFail.curIER).countP isWrEv := by
  refine ⟨regsIsNull_eq_false, by decide, rfl, by decide⟩

/-- Claim C7: a requested count of 0 runs zero poll iterations (the loop
body over the empty sample list contributes nothing and leaves the counters
at zero) while the startup dump, the post-configuration dump and the
terminating dump all still happen. -/
theorem zero_iterations (inp : Input) (h : inp.arg = some 0)
    (hr : inp.openOk = true) :
    pollRun inp.cfg 0 pollInit 0 (sampleList inp.samples (Int.toNat 0))
        = .ok (pollInit, []) ∧
    mainRun inp = some (.exitSuccess,
      (Ev.banner 0 :: dump_regs inp.regs0)
        ++ configEvents inp.cfg inp.curIER
        ++ (Ev.banner 1 :: dump_regs inp.regs1)
        ++ [Ev.banner 2]
        ++ (Ev.banner 3 :: dump_regs inp.regs2)
        ++ reportEvents inp.cfg 0 0) := by
  refine ⟨rfl, ?_⟩
  simp [mainRun, h, hr, regsIsNull_eq_false, sampleList, pollRun, pollInit, reportEvents]

/-- Witness input for C7: zero iterations requested. -/
def inputZeroIters : Input :=
  ⟨true, .mapped, ⟨false, false, false, false, false⟩, some 0,
   fun _ => 5, fun _ => 6, fun _ => 7, 0, fun _ => ⟨33, 65, some 0⟩⟩

/-- Witness for C7. -/
theorem zero_iterations_witness :
    pollRun inputZeroIters.cfg 0 pollInit 0
        (sampleList inputZeroIters.samples (Int.toNat 0)) = .ok (pollInit, []) ∧
    mainRun inputZeroIters = some (.exitSuccess,
      (Ev.banner 0 :: dump_regs inputZeroIters.regs0)
        ++ configEvents inputZeroIters.cfg inputZeroIters.curIER
        ++ (Ev.banner 1 :: dump_regs inputZeroIters.regs1)
        ++ [Ev.banner 2]
        ++ (Ev.banner 3 :: dump_regs inputZeroIters.regs2)
        ++ reportEvents inputZeroIters.cfg 0 0) :=
  zero_iterations inputZeroIters rfl rfl

/-- Claim C9: a clock failure on an iteration that must log (active sample in
the Stalled state, or inactive sample in the Flowing state) aborts the
whole program immediately: the failing iteration contributes only its LSR
read (no transmit write, no receive, no rollback write), appending further
requested iterations changes nothing, and the run ends with the clock
error outcome — the trace stops inside the loop, with no terminating dump
and no counter report after it. -/
theorem clock_failure_fatal :
    (∀ (cfg : Config) (s : PollState) (i : Nat) (smp : Sample),
       smp.clk = none → active smp.lsr = s.stall →
       pollStep cfg s i smp = .error [Ev.rd R_LSR smp.lsr]) ∧
    (∀ (cfg : Config) (inc : Nat) (s : PollState) (i : Nat)
       (xs ys : List Sample) (e : List Ev),
       pollRun cfg inc s i xs = .error e →
       pollRun cfg inc s i (xs ++ ys) = .error e) ∧
    (∀ (inp : Input) (iters : Int) (e : List Ev),
       inp.openOk = true → inp.arg = some iters → 0 ≤ iters →
       pollRun inp.cfg (if 0 < iters then 1 else 0) pollInit 0
           (sampleList inp.samples iters.toNat) = .error e →
       mainRun inp = some (.errClock,
         (Ev.banner 0 :: dump_regs inp.regs0)
           ++ configEvents inp.cfg inp.curIER
           ++ (Ev.banner 1 :: dump_regs inp.regs1)
           ++ [Ev.banner 2] ++ e)) := by
  refine ⟨?_, ?_, ?_⟩
  · intro cfg s i smp hclk hedge
    exact pollStep_err_spec hclk hedge
  · intro cfg inc s i xs ys e h
    exact pollRun_error_append cfg inc xs ys s i e h
  · intro inp iters e hr harg h0 herr
    have hneg : ¬iters < 0 := by omega
    simp [mainRun, hr, harg, hneg, herr, regsIsNull_eq_false]

/-- Witness input for C9: three iterations requested, the clock failing
from the second iteration on (which must log a stall edge). -/
def inputClockFail : Input :=
  ⟨true, .mapped, ⟨false, false, false, false, false⟩, some 3,
   fun _ => 0, fun _ => 0, fun _ => 0, 0,
   fun k => if k = 0 then ⟨33, 65, some 1⟩ else ⟨0, 0, none⟩⟩

/-- Witness for C9: the run aborts inside iteration 1 right after the LSR
read; nothing follows it — in particular no terminating dump. -/
theorem clock_failure_fatal_witness :
    mainRun inputClockFail = some (.errClock,
      (Ev.banner 0 :: dump_regs inputClockFail.regs0)
        ++ configEvents inputClockFail.cfg inputClockFail.curIER
        ++ (Ev.banner 1 :: dump_regs inputClockFail.regs1)
        ++ [Ev.banner 2]
        ++ [Ev.rd R_LSR 33, Ev.wr R_THR 121, Ev.rd R_RBR 65, Ev.out 65,
            Ev.rd R_LSR 0]) :=
  clock_failure_fatal.2.2 inputClockFail 3
    [Ev.rd R_LSR 33, Ev.wr R_THR 121, Ev.rd R_RBR 65, Ev.out 65, Ev.rd R_LSR 0]
    rfl rfl (by decide) (by rfl)

/-- Claim C10: with no positional iteration-count argument the program dumps
the startup registers and exits successfully; its whole trace is the
startup banner plus that dump, which contains no register write — the
device registers are never written — and no configuration or poll event. -/
theorem no_arg_inspects_only (inp : Input) (h : inp.arg = none)
    (hr : inp.openOk = true) :
    mainRun inp = some (.exitSuccess, Ev.banner 0 :: dump_regs inp.regs0) ∧
    (Ev.banner 0 :: dump_regs inp.regs0).countP isWrEv = 0 := by
  constructor
  · simp [mainRun, h, hr, regsIsNull_eq_false]
  · simp [dump_regs, dumpOffsets, isWrEv, List.countP_cons]

/-- Witness input for C10: no positional argument. -/
def inputNoArg : Input :=
  ⟨true, .mapped, ⟨false, false, false, false, false⟩, none,
   fun _ => 9, fun _ => 9, fun _ => 9, 0, fun _ => ⟨0, 0, some 0⟩⟩

/-- Witness for C10. -/
theorem no_arg_inspects_only_witness :
    mainRun inputNoArg = some (.exitSuccess, Ev.banner 0 :: dump_regs inputNoArg.regs0) ∧
    (Ev.banner 0 :: dump_regs inputNoArg.regs0).countP isWrEv = 0 :=
  no_arg_inspects_only inputNoArg rfl rfl

end UUart
